import Mathlib

/-!
# Stepladder client: SOCKS5 frame codec, connection handler and re-login logic

A shallow embedding of `client/main.go`.  Bytes are natural numbers (a Go `byte`
is a value below 256, conversions `byte(x)` are written `x % 256`), Go strings
are lists of bytes, `err == nil` is `none`, and the mutable receivers of the Go
methods are passed in and returned.
-/

set_option linter.dupNamespace false

namespace Stepladder

/-- A Go `byte`. -/
abbrev Byte := Nat

/-- A Go `string`: its bytes. -/
abbrev GoString := List Byte

/-- ASCII literal as a Go string. -/
def str (s : String) : GoString := s.toList.map Char.toNat

/-- The Go error values that occur: `io.EOF`, `io.ErrUnexpectedEOF`, a transport
failure reported by a connection, and `errors.New msg`. -/
inductive GoError where
  | EOF
  | ErrUnexpectedEOF
  | transport
  | New (msg : String)
  deriving DecidableEq, Repr

/-! ## Constants -/

def verSocks5 : Byte := 0x05
def cmdConnect : Byte := 0x01
def atypIPv4Address : Byte := 0x01
def atypDomainName : Byte := 0x03
def atypIPv6Address : Byte := 0x04
def reqtypeTCP : Byte := 0x01
def reqtypeBIND : Byte := 0x02
def reqtypeUDP : Byte := 0x03
def repSucceeded : Byte := 0x00
def rsvReserved : Byte := 0x00
def IPv4len : Nat := 4
def IPv6len : Nat := 16

/-- Handshake kinds: `login = iota`, `connection`. -/
def login : Nat := 0
def connection : Nat := 1

/-! ## The reading side of a `net.Conn`

The peer's data arrives in segments; one `Read` hands over at most one segment
(or the part of it that fits the buffer).  Once all segments are consumed every
`Read` returns zero bytes and the error `closing` (`io.EOF` after an orderly
shutdown). -/

structure Conn where
  chunks : List (List Byte)
  closing : GoError
  deriving DecidableEq, Repr

/-- All bytes still to be delivered by the connection. -/
def Conn.pending (conn : Conn) : List Byte := conn.chunks.flatten

/-- Go `conn.Read(p)` with `len(p) = k`: the bytes stored into `p`, the error, the
connection afterwards. -/
def Conn.Read (conn : Conn) (k : Nat) : List Byte × Option GoError × Conn :=
  match conn.chunks with
  | [] => ([], some conn.closing, conn)
  | c :: rest =>
    if c.length ≤ k then (c, none, { conn with chunks := rest })
    else (c.take k, none, { conn with chunks := c.drop k :: rest })

/-- Storing `bs` into `buf[off:]`. -/
def writeAt (buf : List Byte) (off : Nat) (bs : List Byte) : List Byte :=
  buf.take off ++ bs ++ buf.drop (off + bs.length)

/-- The loop of `recv`: `for nn := 0; n < m; { nn, err = conn.Read(buf[n:m]); ... }`.
One unit of fuel is one iteration; `none` is an exhausted fuel. -/
def recvLoop : Nat → List Byte → Nat → Nat → Option GoError → Conn →
    Option (Nat × Option GoError × List Byte × Conn)
  | 0, buf, n, m, err, conn => if n < m then none else some (n, err, buf, conn)
  | fuel + 1, buf, n, m, err, conn =>
    if n < m then
      match conn.Read (m - n) with
      | (bs, e, conn1) =>
        if e ≠ none ∧ e ≠ some GoError.EOF then some (n, e, writeAt buf n bs, conn1)
        else recvLoop fuel (writeAt buf n bs) (n + bs.length) m e conn1
    else some (n, err, buf, conn)

/-- Go `recv(buf, m, conn)`: returns `(n, err)`, the buffer and the connection. -/
def recv (fuel : Nat) (buf : List Byte) (m : Nat) (conn : Conn) :
    Option (Nat × Option GoError × List Byte × Conn) :=
  recvLoop fuel buf 0 m none conn

/-- Go `read(conn)`: the SOCKS5 greeting.  Returns the error and the connection. -/
def read (fuel : Nat) (conn : Conn) : Option (Option GoError × Conn) :=
  let methods := List.replicate 255 0
  match recv fuel (methods.take 2) 2 conn with
  | none => none
  | some (_, err, buf, conn1) =>
    if err ≠ none then some (err, conn1)
    else
      let methods1 := writeAt methods 0 buf
      match recv fuel methods1 (methods1.getD 1 0) conn1 with
      | none => none
      | some (_, err2, _, conn2) =>
        if err2 ≠ none then some (err2, conn2) else some (none, conn2)

/-- The loop of the standard library's `io.ReadAtLeast`,
`for n < min && err == nil { nn, err = r.Read(buf[n:]); n += nn }`,
with `need = min - n`; it ends because every `Read` uses up a segment. -/
def readAtLeastLoop (closing : GoError) :
    List (List Byte) → List Byte → Nat → List Byte × Option GoError × List (List Byte)
  | chunks, got, 0 => (got, none, chunks)
  | [], got, _ + 1 => (got, some closing, [])
  | c :: rest, got, need + 1 =>
    if c.length ≤ need + 1 then readAtLeastLoop closing rest (got ++ c) (need + 1 - c.length)
    else (got ++ c.take (need + 1), none, c.drop (need + 1) :: rest)

/-- The standard library's `io.ReadFull(conn, buf)` with `len(buf) = k`: the bytes
read, the error (`nil` when all `k` were read, `io.ErrUnexpectedEOF` when the
stream ended after some but not all), the connection. -/
def ReadFull (conn : Conn) (k : Nat) : List Byte × Option GoError × Conn :=
  match readAtLeastLoop conn.closing conn.chunks [] k with
  | (got, err, chunks1) =>
    let err1 :=
      if got.length ≥ k then none
      else if got.length > 0 ∧ err = some GoError.EOF then some GoError.ErrUnexpectedEOF
      else err
    (got, err1, { conn with chunks := chunks1 })

/-! ## The SOCKS5 command frame -/

structure cmd where
  ver : Byte
  cmd : Byte
  rsv : Byte
  atyp : Byte
  reqtype : GoString
  dst_addr : List Byte
  dst_port : Nat
  deriving DecidableEq, Repr

/-- The zero value `var cmd cmd`. -/
def cmd.zero : Stepladder.cmd := ⟨0, 0, 0, 0, [], [], 0⟩

/-- The `switch c.cmd` of `ReadFrom`. -/
def cmd.setReqtype (c : Stepladder.cmd) : Stepladder.cmd :=
  if c.cmd = reqtypeTCP then { c with reqtype := str "tcp" }
  else if c.cmd = reqtypeBIND then c
  else if c.cmd = reqtypeUDP then { c with reqtype := str "udp" }
  else c

/-- The tail of `ReadFrom` after `ln` is known: the address, then the port. -/
def cmd.readAddrPort (c : Stepladder.cmd) (n : Nat) (ln : Byte) (conn : Conn) :
    Stepladder.cmd × Nat × Option GoError × Conn :=
  match ReadFull conn ln with
  | (got, err, conn1) =>
    let c1 := { c with dst_addr := got ++ List.replicate (ln - got.length) 0 }
    if err ≠ none then (c1, n, err, conn1)
    else
      match ReadFull conn1 2 with
      | (pb, err2, conn2) =>
        if err2 ≠ none then (c1, n + ln, err2, conn2)
        else ({ c1 with dst_port := (pb.getD 0 0) * 256 + pb.getD 1 0 }, n + ln + 2, none, conn2)

/-- The header bytes stored in the receiver, `c.ver, c.cmd, c.rsv, c.atyp = buf[0], ...`,
and the `switch c.cmd`. -/
def cmd.setHeader (c : Stepladder.cmd) (buf : List Byte) : Stepladder.cmd :=
  cmd.setReqtype
    { c with ver := buf.getD 0 0, cmd := buf.getD 1 0, rsv := buf.getD 2 0, atyp := buf.getD 3 0 }

/-- The `switch c.atyp` of `ReadFrom` and what follows it. -/
def cmd.readBody (c : Stepladder.cmd) (conn : Conn) : Stepladder.cmd × Nat × Option GoError × Conn :=
  if c.atyp = atypIPv4Address then c.readAddrPort 0 IPv4len conn
  else if c.atyp = atypDomainName then
    match ReadFull conn 1 with
    | (lb, err1, conn2) =>
      if err1 ≠ none then (c, 0, err1, conn2)
      else c.readAddrPort 1 (lb.getD 0 0) conn2
  else if c.atyp = atypIPv6Address then c.readAddrPort 0 IPv6len conn
  else (c, 0, none, conn)

/-- Go `(c *cmd) ReadFrom(conn)`: the receiver afterwards, `n`, `err`, the connection. -/
def cmd.ReadFrom (fuel : Nat) (c : Stepladder.cmd) (conn : Conn) :
    Option (Stepladder.cmd × Nat × Option GoError × Conn) :=
  match recv fuel (List.replicate 4 0) 4 conn with
  | none => none
  | some (_, err, buf, conn1) =>
    if err ≠ none then some (c, 0, err, conn1)
    else some ((c.setHeader buf).readBody conn1)

/-! ## Rendering the destination -/

/-- The standard library's `strconv.Itoa` on a non-negative number (also `uitoa`). -/
def itoa (n : Nat) : GoString := (Nat.toDigits 10 n).map Char.toNat

/-- The standard library's `appendHex`: lower-case hexadecimal, no leading zeros. -/
def appendHex (n : Nat) : GoString := (Nat.toDigits 16 n).map Char.toNat

/-- The standard library's `hexString`: two hexadecimal digits per byte. -/
def hexString (b : List Byte) : GoString :=
  (b.map fun x => (Nat.toDigits 16 (x / 16) ++ Nat.toDigits 16 (x % 16)).map Char.toNat).flatten

/-- The standard library's `v4InV6Prefix`. -/
def v4InV6Prefix : List Byte := [0, 0, 0, 0, 0, 0, 0, 0, 0, 0, 0xff, 0xff]

/-- The standard library's `net.IPv4(a, b, c, d)`: the 16-byte form. -/
def net_IPv4 (a b c d : Byte) : List Byte := v4InV6Prefix ++ [a, b, c, d]

/-- The standard library's `IP.To4`; `none` is the nil slice. -/
def IP_To4 (ip : List Byte) : Option (List Byte) :=
  if ip.length = IPv4len then some ip
  else if ip.length = IPv6len ∧ ip.take 12 = v4InV6Prefix then some (ip.drop 12)
  else none

/-- The 16-bit groups of a 16-byte address. -/
def groups : List Byte → List Nat
  | a :: b :: rest => (a * 256 + b) :: groups rest
  | _ => []

/-- Number of leading zero groups. -/
def zeroRun : List Nat → Nat
  | 0 :: gs => zeroRun gs + 1
  | _ => 0

/-- The search of `IP.String` for the longest run of zero groups (the first of the
longest); `best = none` is `e0 = e1 = -1`.  Indices count groups. -/
def longestZeros : Nat → Nat → List Nat → Option (Nat × Nat) → Option (Nat × Nat)
  | 0, _, _, best => best
  | fuel + 1, i, gs, best =>
    if gs.length ≤ i then best
    else
      let r := zeroRun (gs.drop i)
      let bestLen := match best with
        | none => 0
        | some (e0, e1) => e1 - e0
      if 0 < r ∧ bestLen < r then longestZeros fuel (i + r + 1) gs (some (i, i + r))
      else longestZeros fuel (i + 1) gs best

/-- The printing loop of `IP.String`, with `::` in place of the run `run`. -/
def printGroups : Nat → Nat → List Nat → Option (Nat × Nat) → GoString
  | 0, _, _, _ => []
  | fuel + 1, i, gs, run =>
    if gs.length ≤ i then []
    else
      match run with
      | some (e0, e1) =>
        if i = e0 then
          if gs.length ≤ e1 then str "::"
          else str "::" ++ appendHex (gs.getD e1 0) ++ printGroups fuel (e1 + 1) gs run
        else
          (if 0 < i then str ":" else []) ++ appendHex (gs.getD i 0) ++ printGroups fuel (i + 1) gs run
      | none =>
        (if 0 < i then str ":" else []) ++ appendHex (gs.getD i 0) ++ printGroups fuel (i + 1) gs run

/-- Dotted-decimal form of four bytes. -/
def dotted (p4 : List Byte) : GoString :=
  itoa (p4.getD 0 0) ++ str "." ++ itoa (p4.getD 1 0) ++ str "." ++ itoa (p4.getD 2 0) ++ str "." ++
    itoa (p4.getD 3 0)

/-- The standard library's `IP.String`. -/
def IP_String (ip : List Byte) : GoString :=
  if ip.length = 0 then str "<nil>"
  else
    match IP_To4 ip with
    | some p4 => dotted p4
    | none =>
      if ip.length ≠ IPv6len then str "?" ++ hexString ip
      else
        let gs := groups ip
        let run := match longestZeros 8 0 gs none with
          | some (e0, e1) => if e1 - e0 ≤ 1 then none else some (e0, e1)
          | none => none
        printGroups 8 0 gs run

/-- Go `(c *cmd) DestAddress()`; `none` is the index-out-of-range panic of
`c.dst_addr[i]` on an IPv4 request with fewer than four address bytes. -/
def cmd.DestAddress (c : Stepladder.cmd) : Option GoString :=
  let host : Option GoString :=
    if c.atyp = atypIPv4Address then
      if c.dst_addr.length < 4 then none
      else some (IP_String (net_IPv4 (c.dst_addr.getD 0 0) (c.dst_addr.getD 1 0) (c.dst_addr.getD 2 0)
        (c.dst_addr.getD 3 0)))
    else if c.atyp = atypDomainName then some c.dst_addr
    else if c.atyp = atypIPv6Address then some (IP_String c.dst_addr)
    else some (str "<unsupported address type>")
  host.map fun h => h ++ str ":" ++ itoa c.dst_port

/-! ## The SOCKS5 reply -/

/-- An `io.Writer`: the bytes written so far, and whether `Write` fails. -/
structure Writer where
  out : List Byte
  failing : Bool
  deriving DecidableEq, Repr

/-- Go `w.Write(buf)`. -/
def Writer.Write (w : Writer) (buf : List Byte) : Nat × Option GoError × Writer :=
  if w.failing then (0, some GoError.transport, w)
  else (buf.length, none, { w with out := w.out ++ buf })

structure cmdResp where
  ver : Byte
  rep : Byte
  rsv : Byte
  atyp : Byte
  bnd_addr : List Byte
  bnd_port : Nat
  deriving DecidableEq, Repr

/-- The standard library's `binary.BigEndian.PutUint16`. -/
def PutUint16 (v : Nat) : List Byte := [(v / 256) % 256, v % 256]

/-- The end of `WriteTo`: two bytes appended, the port stored in them, the buffer written. -/
def cmdResp.finish (c : cmdResp) (buf : List Byte) (w : Writer) : Nat × Option GoError × Writer :=
  let buf1 := buf ++ [0, 0]
  let buf2 := writeAt buf1 (buf1.length - 2) (PutUint16 c.bnd_port)
  w.Write buf2

/-- Go `(c *cmdResp) WriteTo(w)`: `n`, `err`, the writer afterwards. -/
def cmdResp.WriteTo (c : cmdResp) (w : Writer) : Nat × Option GoError × Writer :=
  if c.ver ≠ verSocks5 then (0, some (GoError.New "cmdResp.WriteTo: unsupported protocol version"), w)
  else
    let buf := [c.ver, c.rep, c.rsv, c.atyp]
    if c.atyp = atypIPv4Address then
      if c.bnd_addr.length < IPv4len then (0, some (GoError.New "cmdResp.bnd_addr too short"), w)
      else c.finish (buf ++ c.bnd_addr.take IPv4len) w
    else if c.atyp = atypDomainName then
      if c.bnd_addr.length > 255 then (0, some (GoError.New "cmdResp.bnd_addr too large"), w)
      else c.finish (buf ++ [c.bnd_addr.length % 256] ++ c.bnd_addr) w
    else if c.atyp = atypIPv6Address then
      if c.bnd_addr.length < IPv6len then (0, some (GoError.New "cmdResp.bnd_addr too short"), w)
      else c.finish (buf ++ c.bnd_addr.take IPv6len) w
    else c.finish buf w

/-! ## Handshakes with the server -/

/-- Go `Handshake`; `Typ` is its field `Type`. -/
structure Handshake where
  Typ : Nat
  Value : List (GoString × GoString)
  deriving DecidableEq, Repr

/-- The tunnel connection returned by `send`: its local endpoint, the address as
`net.ParseIP` returns it for the host part (16 bytes, or the nil slice `[]` when the
host does not parse, as for an address with an IPv6 zone). -/
structure PConn where
  localIP : List Byte
  localPort : Nat
  deriving DecidableEq, Repr

/-- What `s.send` returns, decided by the network and the server:
`(nil, false, err)`, `(pconn, false, nil)` or `(pconn, true, nil)`. -/
inductive SendOutcome where
  | failed (e : GoError)
  | refused (pconn : PConn)
  | accepted (pconn : PConn)
  deriving DecidableEq, Repr

/-- What a run of the client does to the outside.  `send h flag` is one call of
`s.send(h)`, with the value the variable `relogin` has at that moment; `probeWrite ok`
is one call of `pconn.Write([]byte{0})` on the control connection and whether it
succeeded. -/
inductive Event where
  | send (h : Handshake) (reloginFlag : Bool)
  | spawnHeartbeat
  | probeWrite (ok : Bool)
  | closeControl
  | closeLocal
  | closeTunnel
  | relay
  deriving DecidableEq, Repr

structure serve where
  serverHost : GoString
  serverPort : GoString
  key : GoString
  deriving DecidableEq, Repr

/-- The package variables `relogin` and `heartbeatGoroutine`, and the events so far. -/
structure Globals where
  relogin : Bool
  heartbeatGoroutine : Int
  trace : List Event
  deriving DecidableEq, Repr

def Globals.log (g : Globals) (e : Event) : Globals :=
  { g with trace := g.trace ++ [e] }

/-- The call `s.send(h)` as seen from outside. -/
def Globals.send (g : Globals) (h : Handshake) : Globals :=
  g.log (Event.send h g.relogin)

/-- The Login handshake message of `handshake`. -/
def loginMessage (s : serve) : Handshake := ⟨login, [(str "key", s.key)]⟩

/-- Go `(s *serve) handshake()`: one Login handshake; on success the heartbeat
goroutine is started. -/
def serve.handshake (s : serve) (o : SendOutcome) (g : Globals) : Option GoError × Globals :=
  let g1 := g.send (loginMessage s)
  match o with
  | SendOutcome.failed e => (some e, g1)
  | SendOutcome.refused _ => (some (GoError.New "与服务器验证失败，请检查key是否正确"), g1)
  | SendOutcome.accepted _ => (none, g1.log Event.spawnHeartbeat)

/-- Go `(s *serve) reLogin()`. -/
def serve.reLogin (s : serve) (o : SendOutcome) (g : Globals) : Globals :=
  if ¬ g.relogin then
    let g1 := { g with relogin := true }
    match s.handshake o g1 with
    | (err, g2) =>
      if err ≠ none then { g2 with relogin := false }
      else { g2 with relogin := false }
  else g

/-- The heartbeat goroutine's entry: `heartbeatGoroutine++`. -/
def heartbeatStart (g : Globals) : Globals :=
  { g with heartbeatGoroutine := g.heartbeatGoroutine + 1 }

/-- The deferred `heartbeatGoroutine--` of the heartbeat goroutine. -/
def heartbeatExit (g : Globals) : Globals :=
  { g with heartbeatGoroutine := g.heartbeatGoroutine - 1 }

/-- One round of the heartbeat loop after its sleep.  `write1` and `write2` tell whether
the probe write and the second write succeed when made, `o` is what a Login handshake
meets.  Every write made is logged.  Returns whether the goroutine keeps running, and
the globals. -/
def heartbeatRound (s : serve) (o : SendOutcome) (write1 write2 : Bool) (g : Globals) :
    Bool × Globals :=
  let g1 := g.log (Event.probeWrite write1)
  if write1 then (true, g1)
  else if g1.heartbeatGoroutine > 1 then (false, heartbeatExit g1)
  else
    let g2 := g1.log (Event.probeWrite write2)
    if write2 then (true, g2)
    else (false, heartbeatExit (s.reLogin o (g2.log Event.closeControl)))

/-! ## Handling a local connection -/

/-- The reply of `handleConnection`, built from the tunnel's local endpoint
(`ip := net.ParseIP(host)`, then `ip.To4()`, else `ip[:net.IPv6len]`); `none` is the
slice-bounds panic of `ip[:net.IPv6len]` when `ip` is nil or shorter than 16 bytes. -/
def mkReply (pconn : PConn) : Option cmdResp :=
  let r : cmdResp := ⟨verSocks5, repSucceeded, rsvReserved, 0, [], 0⟩
  match IP_To4 pconn.localIP with
  | some ipv4 =>
    some { r with atyp := atypIPv4Address, bnd_addr := ipv4.take IPv4len,
                  bnd_port := pconn.localPort % 65536 }
  | none =>
    if pconn.localIP.length < IPv6len then none
    else some { r with atyp := atypIPv6Address, bnd_addr := pconn.localIP.take IPv6len,
                       bnd_port := pconn.localPort % 65536 }

/-- How a call ends: by returning, or by a run-time panic. -/
inductive Exit where
  | returned
  | panicked
  deriving DecidableEq, Repr

/-- The Connection handshake message of `handleConnection`. -/
def connectionMessage (reqtype url : GoString) : Handshake :=
  ⟨connection, [(str "reqtype", reqtype), (str "url", url)]⟩

/-- Go `(s *serve) handleConnection(conn)`.  `conn` is the reading side of the local
connection, `w` its writing side, `o` what the Connection handshake meets and `oLogin`
what the Login handshake of a re-login meets.  Returns how the call ends, the globals
and the writing side at that point; `none` when the call never ends. -/
def serve.handleConnection (s : serve) (fuel : Nat) (o oLogin : SendOutcome) (conn : Conn)
    (w : Writer) (g : Globals) : Option (Exit × Globals × Writer) :=
  match read fuel conn with
  | none => none
  | some (err, conn1) =>
    if err ≠ none then some (Exit.returned, g.log Event.closeLocal, w)
    else
      match w.Write [5, 0] with
      | (_, err1, w1) =>
        if err1 ≠ none then some (Exit.returned, g.log Event.closeLocal, w1)
        else
          match cmd.ReadFrom fuel cmd.zero conn1 with
          | none => none
          | some (c, _, err2, _) =>
            if err2 ≠ none then some (Exit.returned, g.log Event.closeLocal, w1)
            else if c.cmd ≠ cmdConnect then some (Exit.returned, g.log Event.closeLocal, w1)
            else
              match c.DestAddress with
              | none => some (Exit.panicked, g, w1)
              | some dest =>
                let g1 := g.send (connectionMessage c.reqtype dest)
                match o with
                | SendOutcome.failed _ => some (Exit.returned, g1.log Event.closeLocal, w1)
                | SendOutcome.refused _ =>
                  some (Exit.returned,
                    s.reLogin oLogin ((g1.log Event.closeTunnel).log Event.closeLocal), w1)
                | SendOutcome.accepted pconn =>
                  match mkReply pconn with
                  | none => some (Exit.panicked, g1, w1)
                  | some r =>
                    match r.WriteTo w1 with
                    | (_, err3, w2) =>
                      if err3 ≠ none then
                        some (Exit.returned, (g1.log Event.closeLocal).log Event.closeTunnel, w2)
                      else some (Exit.returned, g1.log Event.relay, w2)

/-! ## Frames, numerals and example runs used in the statements -/

/-- The address field of a command frame on the wire: the address bytes, preceded by
one length byte when the address is a domain name. -/
def addrField (atyp : Byte) (addr : List Byte) : List Byte :=
  if atyp = atypDomainName then addr.length :: addr else addr

/-- A well-formed SOCKS5 command frame: header, address field, port. -/
def commandFrame (ver cm rsv atyp : Byte) (addr : List Byte) (hi lo : Byte) : List Byte :=
  [ver, cm, rsv, atyp] ++ addrField atyp addr ++ [hi, lo]

/-- The address length matches the address type. -/
def wellFormedAddr (atyp : Byte) (addr : List Byte) : Prop :=
  (atyp = atypIPv4Address ∧ addr.length = 4) ∨ (atyp = atypIPv6Address ∧ addr.length = 16) ∨
    (atyp = atypDomainName ∧ addr.length ≤ 255)

instance (atyp : Byte) (addr : List Byte) : Decidable (wellFormedAddr atyp addr) := by
  unfold wellFormedAddr
  infer_instance

/-- The request `ReadFrom` builds from a frame. -/
def parsedFrame (c0 : Stepladder.cmd) (ver cm rsv atyp : Byte) (addr : List Byte) (hi lo : Byte) :
    Stepladder.cmd :=
  { cmd.setReqtype { c0 with ver := ver, cmd := cm, rsv := rsv, atyp := atyp } with
    dst_addr := addr, dst_port := hi * 256 + lo }

/-- The address field of a reply on the wire. -/
def replyAddrField (atyp : Byte) (addr : List Byte) : List Byte :=
  if atyp = atypIPv4Address then addr.take 4
  else if atyp = atypIPv6Address then addr.take 16
  else if atyp = atypDomainName then addr.length :: addr
  else []

/-- The number a string of decimal digits denotes. -/
def decimalValue (s : GoString) : Nat := s.foldl (fun acc d => acc * 10 + (d - 48)) 0

/-- A local connection delivering the greeting `05 01 00` and a CONNECT frame for the
domain "test.local", port 80. -/
def connectStream : Conn :=
  ⟨[[5, 1, 0], [5, 1, 0, 3, 10, 116, 101, 115, 116, 46, 108, 111, 99, 97, 108, 0, 80]], GoError.EOF⟩

/-- A local connection delivering the greeting `05 01 00` and a UDP frame (command byte 3)
for 10.0.0.1, port 53. -/
def udpStream : Conn :=
  ⟨[[5, 1, 0], [5, 3, 0, 1, 10, 0, 0, 1, 0, 53]], GoError.EOF⟩

/-- The server of the examples. -/
def exampleServe : serve := ⟨str "127.0.0.1", str "8081", str "secret"⟩

/-- A tunnel whose local endpoint is 10.0.0.5:54321. -/
def exampleTunnel : PConn := ⟨net_IPv4 10 0 0 5, 54321⟩

/-- The globals after a first login whose heartbeat goroutine has started: one live
monitor. -/
def oneMonitor : Globals :=
  heartbeatStart (exampleServe.handshake (SendOutcome.accepted exampleTunnel) ⟨false, 0, []⟩).2

/-- The globals after a first login whose heartbeat goroutine has started, then a
re-login whose heartbeat goroutine has started too: two live monitors, the second one
bound to the current login. -/
def twoMonitors : Globals :=
  heartbeatStart (exampleServe.reLogin (SendOutcome.accepted exampleTunnel) oneMonitor)

/-! ## Reading lemmas -/

theorem writeAt_writeAt (buf a b : List Byte) (n : Nat) (hn : n ≤ buf.length) :
    writeAt (writeAt buf n a) (n + a.length) b = writeAt buf n (a ++ b) := by
  unfold writeAt
  have h1 : (List.take n buf).length = n := by simp [hn]
  have h2 : (List.take n buf ++ a).length = n + a.length := by simp [h1]
  rw [List.take_append_eq_append_take, List.drop_append_eq_append_drop]
  rw [h2]
  simp [List.take_of_length_le, h2, Nat.add_assoc]

theorem readAtLeastLoop_exact (closing : GoError) (chunks : List (List Byte)) :
    ∀ (got bs rest : List Byte) (need : Nat), chunks.flatten = bs ++ rest → bs.length = need →
      ∃ chunks1, readAtLeastLoop closing chunks got need = (got ++ bs, none, chunks1) ∧
        chunks1.flatten = rest := by
  induction chunks with
  | nil =>
    intro got bs rest need h hl
    simp at h
    obtain ⟨rfl, rfl⟩ := h
    simp at hl
    subst hl
    exact ⟨[], by simp [readAtLeastLoop]⟩
  | cons c cs ih =>
    intro got bs rest need h hl
    cases need with
    | zero =>
      have : bs = [] := List.length_eq_zero.mp hl
      subst this
      exact ⟨c :: cs, by simp [readAtLeastLoop], by simpa using h⟩
    | succ k =>
      simp only [readAtLeastLoop]
      simp only [List.flatten_cons] at h
      by_cases hc : c.length ≤ k + 1
      · rw [if_pos hc]
        have hle : c.length ≤ bs.length := by omega
        obtain ⟨t, rfl⟩ : ∃ t, bs = c ++ t := by
          have := congrArg (List.take c.length) h
          rw [List.take_left, List.take_append_of_le_length hle] at this
          have e : bs = bs.take c.length ++ bs.drop c.length := (List.take_append_drop _ _).symm
          rw [← this] at e
          exact ⟨_, e⟩
        rw [List.append_assoc] at h
        have h2 := List.append_cancel_left h
        obtain ⟨chunks1, e1, e2⟩ := ih (got ++ c) t rest (k + 1 - c.length) h2
          (by simp at hl; omega)
        exact ⟨chunks1, by rw [e1, List.append_assoc], e2⟩
      · rw [if_neg hc]
        have hlt : bs.length < c.length := by omega
        have h3 := congrArg (List.take (k + 1)) h
        rw [List.take_append_of_le_length (by omega), ← hl, List.take_left] at h3
        have h4 := congrArg (List.drop (k + 1)) h
        rw [List.drop_append_of_le_length (by omega), ← hl, List.drop_left] at h4
        rw [hl] at h3 h4
        exact ⟨List.drop (k + 1) c :: cs, by rw [h3], by simpa using h4⟩

theorem ReadFull_exact (conn : Conn) (bs rest : List Byte) (h : conn.pending = bs ++ rest) :
    ∃ conn1, ReadFull conn bs.length = (bs, none, conn1) ∧ conn1.pending = rest ∧
      conn1.closing = conn.closing := by
  obtain ⟨chunks1, e1, e2⟩ := readAtLeastLoop_exact conn.closing conn.chunks [] bs rest bs.length h rfl
  refine ⟨{ conn with chunks := chunks1 }, ?_, e2, rfl⟩
  simp [ReadFull, e1]

theorem recvLoop_exact (closing : GoError) :
    ∀ (fuel : Nat) (chunks : List (List Byte)) (buf bs rest : List Byte) (n m : Nat),
      chunks.flatten = bs ++ rest → n + bs.length = m → n ≤ buf.length → chunks.length ≤ fuel →
      ∃ chunks1, recvLoop fuel buf n m none ⟨chunks, closing⟩ =
          some (m, none, writeAt buf n bs, ⟨chunks1, closing⟩) ∧ chunks1.flatten = rest := by
  intro fuel
  induction fuel with
  | zero =>
    intro chunks buf bs rest n m h hm hn hf
    have hc : chunks = [] := List.length_eq_zero.mp (Nat.le_zero.mp hf)
    subst hc
    simp at h
    obtain ⟨rfl, rfl⟩ := h
    simp at hm
    subst hm
    exact ⟨[], by simp [recvLoop, writeAt], rfl⟩
  | succ f ih =>
    intro chunks buf bs rest n m h hm hn hf
    by_cases hlt : n < m
    · simp only [recvLoop, if_pos hlt]
      cases chunks with
      | nil =>
        simp at h
        obtain ⟨rfl, rfl⟩ := h
        simp at hm
        omega
      | cons c cs =>
        simp only [Conn.Read]
        simp only [List.flatten_cons] at h
        by_cases hc : c.length ≤ m - n
        · rw [if_pos hc]
          have hle : c.length ≤ bs.length := by omega
          obtain ⟨t, rfl⟩ : ∃ t, bs = c ++ t := by
            have := congrArg (List.take c.length) h
            rw [List.take_left, List.take_append_of_le_length hle] at this
            have e : bs = bs.take c.length ++ bs.drop c.length := (List.take_append_drop _ _).symm
            rw [← this] at e
            exact ⟨_, e⟩
          rw [List.append_assoc] at h
          have h2 := List.append_cancel_left h
          simp only [List.length_append] at hm
          have hn2 : n + c.length ≤ (writeAt buf n c).length := by
            unfold writeAt
            simp
            omega
          obtain ⟨chunks1, e1, e2⟩ := ih cs (writeAt buf n c) t rest (n + c.length) m h2
            (by omega) hn2 (by simpa using hf)
          refine ⟨chunks1, ?_, e2⟩
          simp only [ne_eq, not_true_eq_false, false_and, if_false]
          rw [e1, writeAt_writeAt buf c t n hn]
        · rw [if_neg hc]
          have hlt2 : bs.length < c.length := by omega
          have hbl : bs.length = m - n := by omega
          have h3 := congrArg (List.take (m - n)) h
          rw [List.take_append_of_le_length (by omega), ← hbl, List.take_left] at h3
          have h4 := congrArg (List.drop (m - n)) h
          rw [List.drop_append_of_le_length (by omega), ← hbl, List.drop_left] at h4
          rw [hbl] at h3 h4
          simp only [ne_eq, not_true_eq_false, false_and, if_false]
          rw [h3]
          have hdone : ¬ (n + bs.length < m) := by omega
          refine ⟨List.drop (m - n) c :: cs, ?_, by simpa using h4⟩
          cases f with
          | zero => simp only [recvLoop, hm, Nat.lt_irrefl, if_false]
          | succ g => simp only [recvLoop, hm, Nat.lt_irrefl, if_false]
    · have hb : bs = [] := by
        apply List.length_eq_zero.mp
        omega
      subst hb
      simp at hm
      subst hm
      refine ⟨chunks, ?_, by simpa using h⟩
      simp [recvLoop, writeAt]

theorem recv_exact (fuel : Nat) (conn : Conn) (buf bs rest : List Byte)
    (h : conn.pending = bs ++ rest) (hf : conn.chunks.length ≤ fuel) :
    ∃ conn1, recv fuel buf bs.length conn = some (bs.length, none, writeAt buf 0 bs, conn1) ∧
      conn1.pending = rest ∧ conn1.closing = conn.closing := by
  obtain ⟨chunks1, e1, e2⟩ := recvLoop_exact conn.closing fuel conn.chunks buf bs rest 0 bs.length
    h (by simp) (by simp) hf
  exact ⟨⟨chunks1, conn.closing⟩, e1, e2, rfl⟩

theorem readAddrPort_exact (c : Stepladder.cmd) (n : Nat) (conn : Conn) (addr rest : List Byte)
    (hi lo : Byte) (h : conn.pending = addr ++ ([hi, lo] ++ rest)) :
    ∃ conn1, c.readAddrPort n addr.length conn =
        ({ c with dst_addr := addr, dst_port := hi * 256 + lo }, n + addr.length + 2, none, conn1) ∧
      conn1.pending = rest ∧ conn1.closing = conn.closing := by
  obtain ⟨conn1, e1, p1, c1⟩ := ReadFull_exact conn addr ([hi, lo] ++ rest) h
  obtain ⟨conn2, e2, p2, c2⟩ := ReadFull_exact conn1 [hi, lo] rest p1
  refine ⟨conn2, ?_, p2, by rw [c2, c1]⟩
  have e2' : ReadFull conn1 2 = ([hi, lo], none, conn2) := e2
  simp [cmd.readAddrPort, e1, e2']

theorem setReqtype_fields (c : Stepladder.cmd) :
    c.setReqtype.ver = c.ver ∧ c.setReqtype.cmd = c.cmd ∧ c.setReqtype.rsv = c.rsv ∧
      c.setReqtype.atyp = c.atyp ∧ c.setReqtype.dst_addr = c.dst_addr ∧
      c.setReqtype.dst_port = c.dst_port := by
  unfold cmd.setReqtype
  split_ifs <;> simp

theorem ReadFrom_frame_eq (fuel : Nat) (c0 : Stepladder.cmd) (conn : Conn)
    (ver cm rsv atyp hi lo : Byte) (addr rest : List Byte)
    (hwf : wellFormedAddr atyp addr)
    (hstream : conn.pending = commandFrame ver cm rsv atyp addr hi lo ++ rest)
    (hfuel : conn.chunks.length ≤ fuel) :
    ∃ conn1, cmd.ReadFrom fuel c0 conn =
        some (parsedFrame c0 ver cm rsv atyp addr hi lo,
          (if atyp = atypDomainName then 1 else 0) + addr.length + 2, none, conn1) ∧
      conn1.pending = rest ∧ conn1.closing = conn.closing := by
  have hs : conn.pending = [ver, cm, rsv, atyp] ++ (addrField atyp addr ++ ([hi, lo] ++ rest)) := by
    rw [hstream, commandFrame]
    simp
  obtain ⟨conn1, e1, p1, c1⟩ := recv_exact fuel conn (List.replicate 4 0) [ver, cm, rsv, atyp] _ hs hfuel
  have e1' : recv fuel (List.replicate 4 0) 4 conn = some (4, none, [ver, cm, rsv, atyp], conn1) := by
    simpa [writeAt] using e1
  have hatyp := fun c : Stepladder.cmd => (setReqtype_fields c).2.2.2.1
  rcases hwf with ⟨ha, hl⟩ | ⟨ha, hl⟩ | ⟨ha, hl⟩
  · subst ha
    rw [addrField, if_neg (by decide)] at p1
    obtain ⟨conn2, e2, p2, c2⟩ := readAddrPort_exact
      (cmd.setReqtype { c0 with ver := ver, cmd := cm, rsv := rsv, atyp := atypIPv4Address })
      0 conn1 addr rest hi lo p1
    rw [hl] at e2
    refine ⟨conn2, ?_, p2, by rw [c2, c1]⟩
    simp only [cmd.ReadFrom, cmd.setHeader, cmd.readBody, e1']
    simp [hatyp, IPv4len, e2, parsedFrame, hl, show atypIPv4Address ≠ atypDomainName by decide]
  · subst ha
    rw [addrField, if_neg (by decide)] at p1
    obtain ⟨conn2, e2, p2, c2⟩ := readAddrPort_exact
      (cmd.setReqtype { c0 with ver := ver, cmd := cm, rsv := rsv, atyp := atypIPv6Address })
      0 conn1 addr rest hi lo p1
    rw [hl] at e2
    refine ⟨conn2, ?_, p2, by rw [c2, c1]⟩
    simp only [cmd.ReadFrom, cmd.setHeader, cmd.readBody, e1']
    simp [hatyp, IPv6len, e2, parsedFrame, hl, show atypIPv6Address ≠ atypDomainName by decide,
      show atypIPv6Address ≠ atypIPv4Address by decide]
  · subst ha
    rw [addrField, if_pos rfl] at p1
    obtain ⟨conn2, e2, p2, c2⟩ := ReadFull_exact conn1 [addr.length] _ p1
    have e2' : ReadFull conn1 1 = ([addr.length], none, conn2) := e2
    obtain ⟨conn3, e3, p3, c3⟩ := readAddrPort_exact
      (cmd.setReqtype { c0 with ver := ver, cmd := cm, rsv := rsv, atyp := atypDomainName })
      1 conn2 addr rest hi lo p2
    refine ⟨conn3, ?_, p3, by rw [c3, c2, c1]⟩
    simp only [cmd.ReadFrom, cmd.setHeader, cmd.readBody, e1']
    simp [hatyp, e2', e3, parsedFrame, show atypDomainName ≠ atypIPv4Address by decide]

/-- C1: on every connection whose pending bytes begin with a well-formed command frame
(however they are split into segments), `cmd.ReadFrom` returns, with a nil error, the
four header bytes in `ver`, `cmd`, `rsv`, `atyp`, the address bytes (without the length
prefix) in `dst_addr`, `256*hi + lo` in `dst_port`, and leaves exactly the bytes after
the frame pending. -/
theorem ReadFrom_wellformed_frame (fuel : Nat) (c0 : Stepladder.cmd) (conn : Conn)
    (ver cm rsv atyp hi lo : Byte) (addr rest : List Byte)
    (hwf : wellFormedAddr atyp addr)
    (hstream : conn.pending = commandFrame ver cm rsv atyp addr hi lo ++ rest)
    (hfuel : conn.chunks.length ≤ fuel) :
    ∃ c n conn1, cmd.ReadFrom fuel c0 conn = some (c, n, none, conn1) ∧
      c.ver = ver ∧ c.cmd = cm ∧ c.rsv = rsv ∧ c.atyp = atyp ∧
      c.dst_addr = addr ∧ c.dst_port = 256 * hi + lo ∧
      conn1.pending = rest ∧ conn1.closing = conn.closing := by
  obtain ⟨conn1, e, p, cl⟩ := ReadFrom_frame_eq fuel c0 conn ver cm rsv atyp hi lo addr rest hwf
    hstream hfuel
  have hf := setReqtype_fields { c0 with ver := ver, cmd := cm, rsv := rsv, atyp := atyp }
  have hp : (parsedFrame c0 ver cm rsv atyp addr hi lo).dst_port = 256 * hi + lo := by
    show hi * 256 + lo = 256 * hi + lo
    rw [Nat.mul_comm]
  exact ⟨_, _, conn1, e, hf.1, hf.2.1, hf.2.2.1, hf.2.2.2.1, rfl, hp, p, cl⟩

/-- Instance of C1: a CONNECT frame for the domain "test.local", port 80, arriving in
three segments and followed by two further bytes. -/
theorem ReadFrom_wellformed_frame_witness :
    ∃ c n conn1, cmd.ReadFrom 3 cmd.zero
        ⟨[[5, 1], [0, 3, 10, 116, 101, 115], [116, 46, 108, 111, 99, 97, 108, 0, 80, 7, 9]],
          GoError.EOF⟩ = some (c, n, none, conn1) ∧
      c.ver = 5 ∧ c.cmd = 1 ∧ c.rsv = 0 ∧ c.atyp = 3 ∧
      c.dst_addr = [116, 101, 115, 116, 46, 108, 111, 99, 97, 108] ∧ c.dst_port = 256 * 0 + 80 ∧
      conn1.pending = [7, 9] ∧ conn1.closing = GoError.EOF :=
  ReadFrom_wellformed_frame 3 cmd.zero
    ⟨[[5, 1], [0, 3, 10, 116, 101, 115], [116, 46, 108, 111, 99, 97, 108, 0, 80, 7, 9]], GoError.EOF⟩
    5 1 0 3 0 80 [116, 101, 115, 116, 46, 108, 111, 99, 97, 108] [7, 9]
    (by decide) (by decide) (by decide)


/-! ## The reply frame -/

theorem finish_eq (c : cmdResp) (buf : List Byte) (w : Writer) :
    c.finish buf w = w.Write (buf ++ PutUint16 c.bnd_port) := by
  simp [cmdResp.finish, writeAt, PutUint16]

/-- C2: for a reply with `ver = 5`, a recognized address type with a bound address of
valid length, a 16-bit port and a writer that does not fail, `cmdResp.WriteTo` writes
exactly `ver, rep, rsv, atyp`, the address field (first 4 bytes for IPv4, first 16 for
IPv6, length byte and bytes for a domain name) and the port big-endian, and returns the
number of bytes written with a nil error; the reply for status 0, bound address
10.0.0.5 and port 54321 is `05 00 00 01 0a 00 00 05 d4 31`. -/
theorem WriteTo_bytes (c : cmdResp) (w : Writer) (hver : c.ver = 5) (hw : w.failing = false)
    (hport : c.bnd_port < 65536)
    (haddr : (c.atyp = 1 ∧ 4 ≤ c.bnd_addr.length) ∨ (c.atyp = 4 ∧ 16 ≤ c.bnd_addr.length) ∨
      (c.atyp = 3 ∧ c.bnd_addr.length ≤ 255)) :
    (c.WriteTo w =
      (([c.ver, c.rep, c.rsv, c.atyp] ++ replyAddrField c.atyp c.bnd_addr ++
          [c.bnd_port / 256, c.bnd_port % 256]).length, none,
        { w with out := w.out ++ ([c.ver, c.rep, c.rsv, c.atyp] ++ replyAddrField c.atyp c.bnd_addr ++
          [c.bnd_port / 256, c.bnd_port % 256]) })) ∧
    256 * (c.bnd_port / 256) + c.bnd_port % 256 = c.bnd_port ∧
    (mkReply ⟨net_IPv4 10 0 0 5, 54321⟩ = some ⟨5, 0, 0, 1, [10, 0, 0, 5], 54321⟩ ∧
      (mkReply ⟨net_IPv4 10 0 0 5, 54321⟩).map (fun r => r.WriteTo ⟨[], false⟩) =
        some (10, none, ⟨[0x05, 0x00, 0x00, 0x01, 10, 0, 0, 5, 212, 49], false⟩)) := by
  refine ⟨?_, by omega, by decide, by decide⟩
  have hp : (c.bnd_port / 256) % 256 = c.bnd_port / 256 := by omega
  rcases haddr with ⟨ha, hl⟩ | ⟨ha, hl⟩ | ⟨ha, hl⟩
  · simp [cmdResp.WriteTo, finish_eq, Writer.Write, hw, hver, ha, verSocks5, atypIPv4Address,
      IPv4len, replyAddrField, PutUint16, hp, Nat.not_lt.mpr hl]
  · simp [cmdResp.WriteTo, finish_eq, Writer.Write, hw, hver, ha, verSocks5, atypIPv4Address,
      atypIPv6Address, atypDomainName, IPv6len, replyAddrField, PutUint16, hp, Nat.not_lt.mpr hl]
  · have hm : c.bnd_addr.length % 256 = c.bnd_addr.length := by omega
    simp [cmdResp.WriteTo, finish_eq, Writer.Write, hw, hver, ha, verSocks5, atypIPv4Address,
      atypIPv6Address, atypDomainName, replyAddrField, PutUint16, hp, hm, Nat.not_lt.mpr hl]

/-- Instance of C2: a domain-name reply. -/
theorem WriteTo_bytes_witness :
    ((⟨5, 0, 0, 3, [97, 98], 80⟩ : cmdResp).WriteTo ⟨[1], false⟩ =
      (([5, 0, 0, 3] ++ replyAddrField 3 [97, 98] ++ [80 / 256, 80 % 256]).length, none,
        { (⟨[1], false⟩ : Writer) with
          out := [1] ++ ([5, 0, 0, 3] ++ replyAddrField 3 [97, 98] ++ [80 / 256, 80 % 256]) })) ∧
    256 * (80 / 256) + 80 % 256 = 80 ∧
    (mkReply ⟨net_IPv4 10 0 0 5, 54321⟩ = some ⟨5, 0, 0, 1, [10, 0, 0, 5], 54321⟩ ∧
      (mkReply ⟨net_IPv4 10 0 0 5, 54321⟩).map (fun r => r.WriteTo ⟨[], false⟩) =
        some (10, none, ⟨[0x05, 0x00, 0x00, 0x01, 10, 0, 0, 5, 212, 49], false⟩)) :=
  WriteTo_bytes ⟨5, 0, 0, 3, [97, 98], 80⟩ ⟨[1], false⟩ rfl rfl (by decide) (by decide)

/-- C3: with a writer that does not fail, `cmdResp.WriteTo` returns an error exactly when
`ver ≠ 5`, or the address type is IPv4 and the bound address has fewer than 4 bytes, or
IPv6 and fewer than 16 bytes, or DomainName and more than 255 bytes. -/
theorem WriteTo_error_iff (c : cmdResp) (w : Writer) (hw : w.failing = false) :
    (c.WriteTo w).2.1 ≠ none ↔
      (c.ver ≠ 5 ∨ (c.atyp = 1 ∧ c.bnd_addr.length < 4) ∨ (c.atyp = 4 ∧ c.bnd_addr.length < 16) ∨
        (c.atyp = 3 ∧ c.bnd_addr.length > 255)) := by
  simp only [cmdResp.WriteTo, finish_eq, Writer.Write, hw, verSocks5, atypIPv4Address,
    atypIPv6Address, atypDomainName, IPv4len, IPv6len]
  by_cases hv : c.ver = 5
  · by_cases h1 : c.atyp = 1
    · by_cases hl : c.bnd_addr.length < 4 <;> simp [hv, h1, hl]
    · by_cases h3 : c.atyp = 3
      · by_cases hl : c.bnd_addr.length > 255 <;> simp [hv, h3, hl]
      · by_cases h4 : c.atyp = 4
        · by_cases hl : c.bnd_addr.length < 16 <;> simp [hv, h4, hl]
        · simp [hv, h1, h3, h4]
  · simp [hv]

/-- Instance of C3: an IPv4 reply with a three-byte bound address is refused. -/
theorem WriteTo_error_iff_witness :
    ((⟨5, 0, 0, 1, [10, 0, 0], 80⟩ : cmdResp).WriteTo ⟨[], false⟩).2.1 ≠ none ↔
      ((5 : Byte) ≠ 5 ∨ ((1 : Byte) = 1 ∧ [10, 0, 0].length < 4) ∨
        ((1 : Byte) = 4 ∧ [10, 0, 0].length < 16) ∨ ((1 : Byte) = 3 ∧ [10, 0, 0].length > 255)) :=
  WriteTo_error_iff ⟨5, 0, 0, 1, [10, 0, 0], 80⟩ ⟨[], false⟩ rfl

/-! ## Unrecognized address types -/

/-- C4 (as the code behaves): for a command frame whose address-type byte is none of
1, 3, 4, `cmd.ReadFrom` returns after the four header bytes with `n = 0` and a nil
error; the request it hands back carries the unrecognized `atyp`, and
`handleConnection` goes on to send a Connection handshake for it. -/
theorem ReadFrom_unrecognized_atyp_nil_error (fuel : Nat) (c0 : Stepladder.cmd) (conn : Conn)
    (ver cm rsv atyp : Byte) (rest : List Byte)
    (hatyp : atyp ≠ 1 ∧ atyp ≠ 3 ∧ atyp ≠ 4)
    (hstream : conn.pending = [ver, cm, rsv, atyp] ++ rest)
    (hfuel : conn.chunks.length ≤ fuel) :
    (∃ c conn1, cmd.ReadFrom fuel c0 conn = some (c, 0, none, conn1) ∧ c.atyp = atyp ∧
      c.dst_addr = c0.dst_addr ∧ c.dst_port = c0.dst_port ∧ conn1.pending = rest) ∧
    serve.handleConnection ⟨[], [], []⟩ 2 (SendOutcome.failed GoError.transport)
        (SendOutcome.failed GoError.transport)
        ⟨[[5, 1, 0], [5, 1, 0, 9, 1, 2, 3, 4, 0, 80]], GoError.EOF⟩ ⟨[], false⟩ ⟨false, 0, []⟩ =
      some (Exit.returned, ⟨false, 0, [Event.send (connectionMessage (str "tcp")
        (str "<unsupported address type>:0")) false, Event.closeLocal]⟩, ⟨[5, 0], false⟩) := by
  refine ⟨?_, by decide⟩
  obtain ⟨conn1, e1, p1, _⟩ := recv_exact fuel conn (List.replicate 4 0) [ver, cm, rsv, atyp] _
    hstream hfuel
  have e1' : recv fuel (List.replicate 4 0) 4 conn = some (4, none, [ver, cm, rsv, atyp], conn1) := by
    simpa [writeAt] using e1
  have hf := setReqtype_fields { c0 with ver := ver, cmd := cm, rsv := rsv, atyp := atyp }
  refine ⟨cmd.setReqtype { c0 with ver := ver, cmd := cm, rsv := rsv, atyp := atyp }, conn1, ?_,
    hf.2.2.2.1, hf.2.2.2.2.1, hf.2.2.2.2.2, p1⟩
  simp only [cmd.ReadFrom, cmd.setHeader, cmd.readBody, e1']
  simp [hf.2.2.2.1, atypIPv4Address, atypDomainName, atypIPv6Address, hatyp.1, hatyp.2.1, hatyp.2.2]

/-- Instance of C4: the frame `05 01 00 02 ...`. -/
theorem ReadFrom_unrecognized_atyp_nil_error_witness :
    (∃ c conn1, cmd.ReadFrom 1 cmd.zero ⟨[[5, 1, 0, 2, 1, 2, 3, 4, 0, 80]], GoError.EOF⟩ =
        some (c, 0, none, conn1) ∧ c.atyp = 2 ∧
      c.dst_addr = cmd.zero.dst_addr ∧ c.dst_port = cmd.zero.dst_port ∧
      conn1.pending = [1, 2, 3, 4, 0, 80]) ∧
    serve.handleConnection ⟨[], [], []⟩ 2 (SendOutcome.failed GoError.transport)
        (SendOutcome.failed GoError.transport)
        ⟨[[5, 1, 0], [5, 1, 0, 9, 1, 2, 3, 4, 0, 80]], GoError.EOF⟩ ⟨[], false⟩ ⟨false, 0, []⟩ =
      some (Exit.returned, ⟨false, 0, [Event.send (connectionMessage (str "tcp")
        (str "<unsupported address type>:0")) false, Event.closeLocal]⟩, ⟨[5, 0], false⟩) :=
  ReadFrom_unrecognized_atyp_nil_error 1 cmd.zero ⟨[[5, 1, 0, 2, 1, 2, 3, 4, 0, 80]], GoError.EOF⟩
    5 1 0 2 [1, 2, 3, 4, 0, 80] (by decide) (by decide) (by decide)

/-! ## A greeting cut short -/

theorem recvLoop_mono : ∀ (fuel : Nat) (buf : List Byte) (n m : Nat) (err : Option GoError)
    (conn : Conn) (r : Nat × Option GoError × List Byte × Conn),
    recvLoop fuel buf n m err conn = some r → ∀ k, recvLoop (fuel + k) buf n m err conn = some r := by
  intro fuel
  induction fuel with
  | zero =>
    intro buf n m err conn r h k
    by_cases hlt : n < m
    · simp [recvLoop, hlt] at h
    · cases k with
      | zero => exact h
      | succ k =>
        simp only [recvLoop, if_neg hlt] at h
        simp only [Nat.zero_add, recvLoop, if_neg hlt]
        exact h
  | succ f ih =>
    intro buf n m err conn r h k
    rw [show f + 1 + k = (f + k) + 1 by omega]
    by_cases hlt : n < m
    · simp only [recvLoop, if_pos hlt] at h ⊢
      split_ifs at h ⊢ with hc
      · exact h
      · exact ih _ _ _ _ _ _ h k
    · simp only [recvLoop, if_neg hlt] at h ⊢
      exact h

/-- Once the stream has ended with fewer bytes pending than `recv` still wants, its loop
never ends: `Read` keeps returning `(0, io.EOF)`, which the loop does not treat as an error. -/
theorem recvLoop_starved : ∀ (fuel : Nat) (chunks : List (List Byte)) (buf : List Byte) (n m : Nat)
    (err : Option GoError), n + chunks.flatten.length < m →
    recvLoop fuel buf n m err ⟨chunks, GoError.EOF⟩ = none := by
  intro fuel
  induction fuel with
  | zero =>
    intro chunks buf n m err h
    have hlt : n < m := by omega
    simp [recvLoop, hlt]
  | succ f ih =>
    intro chunks buf n m err h
    have hlt : n < m := by omega
    simp only [recvLoop, if_pos hlt]
    cases chunks with
    | nil =>
      simp only [Conn.Read]
      simp only [ne_eq, not_true_eq_false, and_false, if_false]
      exact ih [] _ _ _ _ (by simpa using hlt)
    | cons c cs =>
      simp only [List.flatten_cons, List.length_append] at h
      have hc : c.length ≤ m - n := by omega
      simp only [Conn.Read, if_pos hc]
      simp only [ne_eq, not_true_eq_false, false_and, if_false]
      exact ih cs _ _ _ _ (by omega)

/-- C7 (as the code behaves): when the stream ends (end of file) before the two header
bytes of the greeting, or before the `methodCount` method bytes after them, `read` does
not return at all, whatever the number of loop iterations allowed: it neither fails nor
succeeds. -/
theorem read_short_greeting_never_returns (conn : Conn) (hEOF : conn.closing = GoError.EOF)
    (hshort : conn.pending.length < 2 ∨
      ∃ v k ms, conn.pending = v :: k :: ms ∧ ms.length < k) :
    ∀ fuel, read fuel conn = none := by
  intro fuel
  obtain ⟨chunks, closing⟩ := conn
  simp only at hEOF
  subst hEOF
  simp only [read]
  generalize List.replicate 255 0 = methods
  rcases hshort with h | ⟨v, k, ms, hp, hk⟩
  · have : recv fuel (List.take 2 methods) 2 ⟨chunks, GoError.EOF⟩ = none :=
      recvLoop_starved fuel chunks _ 0 2 none (by simp only [Conn.pending] at h; omega)
    rw [this]
  · cases hr : recv fuel (List.take 2 methods) 2 ⟨chunks, GoError.EOF⟩ with
    | none => rfl
    | some r =>
      have hm := recvLoop_mono fuel _ 0 2 none _ r hr chunks.length
      obtain ⟨conn1, e1, p1, c1⟩ := recv_exact (fuel + chunks.length) ⟨chunks, GoError.EOF⟩
        (List.take 2 methods) [v, k] ms hp (Nat.le_add_left _ _)
      have hw : writeAt (List.take 2 methods) 0 [v, k] = [v, k] := by
        have : List.drop 2 (List.take 2 methods) = [] :=
          List.drop_eq_nil_of_le (by simp only [List.length_take]; omega)
        simp only [writeAt, List.take_zero, List.nil_append, List.length_cons, List.length_nil,
          Nat.zero_add, this, List.append_nil]
      rw [hw] at e1
      have e1' : recvLoop (fuel + chunks.length) (List.take 2 methods) 0 2 none
          ⟨chunks, GoError.EOF⟩ = some (2, none, [v, k], conn1) := e1
      rw [e1'] at hm
      have hr' := Option.some.inj hm
      subst hr'
      obtain ⟨chunks1, closing1⟩ := conn1
      simp only at c1
      subst c1
      have hk1 : (writeAt methods 0 [v, k]).getD 1 0 = k := by
        simp only [writeAt, List.take_zero, List.nil_append, List.cons_append]
        rfl
      have hst : recv fuel (writeAt methods 0 [v, k]) k ⟨chunks1, GoError.EOF⟩ = none :=
        recvLoop_starved fuel chunks1 _ 0 k none (by
          simp only [Conn.pending] at p1
          rw [p1]
          omega)
      simp only [ne_eq, not_true_eq_false, if_false]
      rw [hk1, hst]

/-- Instance of C7: the greeting `05 02 00` cut off one method byte short, a thousand
loop iterations allowed. -/
theorem read_short_greeting_never_returns_witness :
    read 1000 ⟨[[5, 2], [0]], GoError.EOF⟩ = none :=
  read_short_greeting_never_returns ⟨[[5, 2], [0]], GoError.EOF⟩ rfl
    (Or.inr ⟨5, 2, [0], by decide, by decide⟩) 1000

/-! ## Decimal rendering -/

theorem digitChar_toNat (m : Nat) (h : m < 10) : (Nat.digitChar m).toNat = 48 + m := by
  interval_cases m <;> rfl

theorem toDigitsCore_value : ∀ (f n : Nat) (ds : List Char), n < f →
    (Nat.toDigitsCore 10 f n ds).foldl (fun acc c => acc * 10 + (c.toNat - 48)) 0 =
      ds.foldl (fun acc c => acc * 10 + (c.toNat - 48)) n := by
  intro f
  induction f with
  | zero => intro n ds h; omega
  | succ f ih =>
    intro n ds h
    simp only [Nat.toDigitsCore]
    have hd : (Nat.digitChar (n % 10)).toNat - 48 = n % 10 := by
      rw [digitChar_toNat _ (Nat.mod_lt _ (by decide))]
      omega
    split_ifs with h0
    · simp only [List.foldl_cons, hd]
      congr 1
      omega
    · rw [ih (n / 10) _ (by omega)]
      simp only [List.foldl_cons, hd]
      congr 1
      omega

theorem toDigitsCore_digits : ∀ (f n : Nat) (ds : List Char),
    ∀ c ∈ Nat.toDigitsCore 10 f n ds, (48 ≤ c.toNat ∧ c.toNat ≤ 57) ∨ c ∈ ds := by
  intro f
  induction f with
  | zero => intro n ds c hc; exact Or.inr hc
  | succ f ih =>
    intro n ds c hc
    simp only [Nat.toDigitsCore] at hc
    have hd := digitChar_toNat (n % 10) (Nat.mod_lt _ (by decide))
    have hm : n % 10 < 10 := Nat.mod_lt _ (by decide)
    split_ifs at hc with h0
    · rcases List.mem_cons.mp hc with rfl | h
      · left; omega
      · exact Or.inr h
    · rcases ih _ _ c hc with h | h
      · exact Or.inl h
      · rcases List.mem_cons.mp h with rfl | h
        · left; omega
        · exact Or.inr h

theorem toDigitsCore_head : ∀ (f n : Nat) (ds : List Char), n ≠ 0 → n < f →
    ∃ m t, 0 < m ∧ m < 10 ∧ Nat.toDigitsCore 10 f n ds = Nat.digitChar m :: t := by
  intro f
  induction f with
  | zero => intro n ds _ h; omega
  | succ f ih =>
    intro n ds hn h
    simp only [Nat.toDigitsCore]
    split_ifs with h0
    · exact ⟨n % 10, ds, by omega, Nat.mod_lt _ (by decide), rfl⟩
    · exact ih (n / 10) _ h0 (by omega)

/-- The string `itoa n` is the decimal numeral of `n`: digits only, denoting `n`, not empty, and
without a leading zero unless `n = 0`. -/
theorem itoa_decimal (n : Nat) :
    decimalValue (itoa n) = n ∧ (∀ x ∈ itoa n, 48 ≤ x ∧ x ≤ 57) ∧ itoa n ≠ [] ∧
      (n ≠ 0 → (itoa n).head? ≠ some 48) := by
  refine ⟨?_, ?_, ?_, ?_⟩
  · simp only [decimalValue, itoa, Nat.toDigits, List.foldl_map]
    rw [toDigitsCore_value (n + 1) n [] (by omega)]
    rfl
  · intro x hx
    simp only [itoa, Nat.toDigits, List.mem_map] at hx
    obtain ⟨c, hc, rfl⟩ := hx
    rcases toDigitsCore_digits (n + 1) n [] c hc with h | h
    · exact h
    · simp at h
  · by_cases hn : n = 0
    · subst hn
      decide
    · obtain ⟨m, t, _, _, e⟩ := toDigitsCore_head (n + 1) n [] hn (by omega)
      simp [itoa, Nat.toDigits, e]
  · intro hn
    obtain ⟨m, t, h0, h10, e⟩ := toDigitsCore_head (n + 1) n [] hn (by omega)
    simp only [itoa, Nat.toDigits, e, List.map_cons, List.head?_cons, ne_eq, Option.some.injEq]
    rw [digitChar_toNat m h10]
    show ¬ ((48 : Nat) + m = 48)
    omega

/-- C5: an IPv4 request with address bytes `a, b, c, d` and port `p` renders as the
dotted decimal `a.b.c.d:p`, a domain-name request as its address bytes, `:` and the
decimal port, every number being a decimal numeral without leading zeros; so
`[93,184,216,34]`, port 443 gives `93.184.216.34:443` and `test.local`, port 80 gives
`test.local:80`. -/
theorem DestAddress_ipv4_domain :
    (∀ (ver cm rsv : Byte) (rt : GoString) (a b c d : Byte) (p : Nat),
      (⟨ver, cm, rsv, 1, rt, [a, b, c, d], p⟩ : Stepladder.cmd).DestAddress =
        some (itoa a ++ str "." ++ itoa b ++ str "." ++ itoa c ++ str "." ++ itoa d ++ str ":" ++
          itoa p)) ∧
    (∀ (ver cm rsv : Byte) (rt : GoString) (addr : List Byte) (p : Nat),
      (⟨ver, cm, rsv, 3, rt, addr, p⟩ : Stepladder.cmd).DestAddress =
        some (addr ++ str ":" ++ itoa p)) ∧
    (∀ n, decimalValue (itoa n) = n ∧ (∀ x ∈ itoa n, 48 ≤ x ∧ x ≤ 57) ∧ itoa n ≠ [] ∧
      (n ≠ 0 → (itoa n).head? ≠ some 48)) ∧
    (⟨5, 1, 0, 1, str "tcp", [93, 184, 216, 34], 443⟩ : Stepladder.cmd).DestAddress =
      some (str "93.184.216.34:443") ∧
    (⟨5, 1, 0, 3, str "tcp", str "test.local", 80⟩ : Stepladder.cmd).DestAddress =
      some (str "test.local:80") := by
  refine ⟨?_, ?_, itoa_decimal, by decide, by decide⟩
  · intro ver cm rsv rt a b c d p
    simp [cmd.DestAddress, atypIPv4Address, IP_String, IP_To4, net_IPv4, v4InV6Prefix, IPv4len,
      IPv6len, dotted]
  · intro ver cm rsv rt addr p
    simp [cmd.DestAddress, atypIPv4Address, atypDomainName]

/-- C8 (as the code behaves): an IPv6 request renders as the textual address, `:` and the
decimal port, with no brackets around the address; the loopback address `::1` with port
80 renders as `::1:80`, not as `[::1]:80`. -/
theorem DestAddress_ipv6_unbracketed :
    (∀ (ver cm rsv : Byte) (rt : GoString) (addr : List Byte) (p : Nat),
      (⟨ver, cm, rsv, 4, rt, addr, p⟩ : Stepladder.cmd).DestAddress =
        some (IP_String addr ++ str ":" ++ itoa p)) ∧
    (⟨5, 1, 0, 4, str "tcp", [0, 0, 0, 0, 0, 0, 0, 0, 0, 0, 0, 0, 0, 0, 0, 1], 80⟩ :
      Stepladder.cmd).DestAddress = some (str "::1:80") ∧
    str "::1:80" ≠ str "[::1]:80" := by
  refine ⟨?_, by decide, by decide⟩
  intro ver cm rsv rt addr p
  simp [cmd.DestAddress, atypIPv4Address, atypDomainName, atypIPv6Address]

/-! ## The handler -/

theorem readAtLeastLoop_nil_err (closing : GoError) (chunks : List (List Byte)) :
    ∀ (got : List Byte) (need : Nat) (got1 : List Byte) (chunks1 : List (List Byte)),
      readAtLeastLoop closing chunks got need = (got1, none, chunks1) →
        got.length + need ≤ got1.length := by
  induction chunks with
  | nil =>
    intro got need got1 chunks1 h
    cases need with
    | zero =>
      simp only [readAtLeastLoop, Prod.mk.injEq] at h
      rw [← h.1]
      omega
    | succ k => simp [readAtLeastLoop] at h
  | cons c cs ih =>
    intro got need got1 chunks1 h
    cases need with
    | zero =>
      simp only [readAtLeastLoop, Prod.mk.injEq] at h
      rw [← h.1]
      omega
    | succ k =>
      simp only [readAtLeastLoop] at h
      split_ifs at h with hc
      · have := ih _ _ _ _ h
        simp only [List.length_append] at this
        omega
      · simp only [Prod.mk.injEq] at h
        rw [← h.1]
        simp only [List.length_append, List.length_take]
        omega

theorem ReadFull_nil_err (conn conn1 : Conn) (k : Nat) (got : List Byte)
    (h : ReadFull conn k = (got, none, conn1)) : k ≤ got.length := by
  unfold ReadFull at h
  rcases hr : readAtLeastLoop conn.closing conn.chunks [] k with ⟨got0, err0, chunks0⟩
  rw [hr] at h
  simp only [Prod.mk.injEq] at h
  obtain ⟨hg, he, _⟩ := h
  subst hg
  by_contra hlt
  have hlt : ¬ got0.length ≥ k := by omega
  rw [if_neg hlt] at he
  split_ifs at he with h2
  subst he
  have := readAtLeastLoop_nil_err _ _ _ _ _ _ hr
  simp at this
  omega

theorem readAddrPort_inv (c c1 : Stepladder.cmd) (n n1 : Nat) (ln : Nat) (conn conn1 : Conn)
    (h : c.readAddrPort n ln conn = (c1, n1, none, conn1)) :
    c1.cmd = c.cmd ∧ c1.atyp = c.atyp ∧ c1.reqtype = c.reqtype ∧ ln ≤ c1.dst_addr.length := by
  unfold cmd.readAddrPort at h
  rcases hr : ReadFull conn ln with ⟨got, err, conn2⟩
  rw [hr] at h
  cases err with
  | some e => simp at h
  | none =>
    have hl := ReadFull_nil_err _ _ _ _ hr
    rcases hr2 : ReadFull conn2 2 with ⟨pb, err2, conn3⟩
    simp only [hr2, ne_eq, not_true_eq_false, if_false] at h
    cases err2 with
    | some e => simp at h
    | none =>
      simp only [not_true_eq_false, if_false, Prod.mk.injEq] at h
      obtain ⟨h1, -, -, -⟩ := h
      subst h1
      refine ⟨rfl, rfl, rfl, ?_⟩
      simp only [List.length_append, List.length_replicate]
      omega

theorem readBody_inv (c c1 : Stepladder.cmd) (n : Nat) (conn conn1 : Conn)
    (h : c.readBody conn = (c1, n, none, conn1)) :
    c1.cmd = c.cmd ∧ c1.reqtype = c.reqtype ∧ (c1.atyp = atypIPv4Address → 4 ≤ c1.dst_addr.length) := by
  unfold cmd.readBody at h
  split_ifs at h with h1 h3 h4
  · obtain ⟨i1, _, i3, i4⟩ := readAddrPort_inv _ _ _ _ _ _ _ h
    exact ⟨i1, i3, fun _ => i4⟩
  · rcases hr1 : ReadFull conn 1 with ⟨lb, err1, conn3⟩
    rw [hr1] at h
    cases err1 with
    | some e => simp at h
    | none =>
      simp only [ne_eq, not_true_eq_false, if_false] at h
      obtain ⟨i1, i2, i3, _⟩ := readAddrPort_inv _ _ _ _ _ _ _ h
      refine ⟨i1, i3, fun ha => ?_⟩
      rw [i2, h3] at ha
      exact absurd ha (by decide)
  · obtain ⟨i1, i2, i3, _⟩ := readAddrPort_inv _ _ _ _ _ _ _ h
    refine ⟨i1, i3, fun ha => ?_⟩
    rw [i2, h4] at ha
    exact absurd ha (by decide)
  · simp only [Prod.mk.injEq] at h
    rw [← h.1]
    exact ⟨rfl, rfl, fun ha => absurd ha h1⟩

theorem setHeader_reqtype (c : Stepladder.cmd) (buf : List Byte)
    (h : (c.setHeader buf).cmd = reqtypeTCP) : (c.setHeader buf).reqtype = str "tcp" := by
  unfold cmd.setHeader at h ⊢
  rw [(setReqtype_fields _).2.1] at h
  unfold cmd.setReqtype
  rw [if_pos h]

theorem ReadFrom_ok_inv (fuel : Nat) (c0 c : Stepladder.cmd) (n : Nat) (conn conn1 : Conn)
    (h : cmd.ReadFrom fuel c0 conn = some (c, n, none, conn1)) :
    (c.cmd = reqtypeTCP → c.reqtype = str "tcp") ∧
      (c.atyp = atypIPv4Address → 4 ≤ c.dst_addr.length) := by
  unfold cmd.ReadFrom at h
  rcases hr : recv fuel (List.replicate 4 0) 4 conn with _ | ⟨_, err, buf, conn2⟩
  · rw [hr] at h
    simp at h
  · rw [hr] at h
    cases err with
    | some e => simp at h
    | none =>
      simp only [ne_eq, not_true_eq_false, if_false, Option.some.injEq] at h
      obtain ⟨i1, i2, i3⟩ := readBody_inv _ _ _ _ _ h
      exact ⟨fun hh => by rw [i2]; exact setHeader_reqtype _ _ (i1 ▸ hh), i3⟩

theorem DestAddress_some (c : Stepladder.cmd)
    (h : c.atyp = atypIPv4Address → 4 ≤ c.dst_addr.length) : ∃ dest, c.DestAddress = some dest := by
  unfold cmd.DestAddress
  by_cases h1 : c.atyp = atypIPv4Address
  · have : ¬ c.dst_addr.length < 4 := Nat.not_lt.mpr (h h1)
    simp only [if_pos h1, if_neg this, Option.map_some']
    exact ⟨_, rfl⟩
  · simp only [if_neg h1]
    split_ifs <;> exact ⟨_, rfl⟩

theorem reLogin_trace_extends (s : serve) (o : SendOutcome) (g : Globals) :
    g.trace <+: (s.reLogin o g).trace := by
  unfold serve.reLogin
  by_cases hr : g.relogin = true
  · simp [hr]
  · cases o <;>
      simp [hr, serve.handshake, Globals.send, Globals.log, List.append_assoc]

/-- C6 (amended): after a greeting read without error, a greeting reply written and a
command frame parsed without error, `handleConnection` sends a Connection handshake
`{"reqtype": "tcp", "url": DestAddress(request)}` when the command byte is CONNECT (1),
whatever the handshake meets (the call then ends by returning, or by the panic of the
reply construction exactly when the handshake is accepted on a tunnel whose local
address does not parse); for every other command byte (BIND = 2 and UDP = 3 included)
it sends nothing, closes the local connection and has written only the greeting reply. -/
theorem handleConnection_connect_only (s : serve) (fuel : Nat) (o oLogin : SendOutcome)
    (conn conn1 conn2 : Conn) (w : Writer) (g : Globals) (c : Stepladder.cmd) (n : Nat)
    (hgreet : read fuel conn = some (none, conn1)) (hw : w.failing = false)
    (hcmd : cmd.ReadFrom fuel cmd.zero conn1 = some (c, n, none, conn2)) :
    (c.cmd = 1 → ∃ dest ex g1 w1, c.DestAddress = some dest ∧
      s.handleConnection fuel o oLogin conn w g = some (ex, g1, w1) ∧
      (g.trace ++ [Event.send (connectionMessage (str "tcp") dest) g.relogin]) <+: g1.trace ∧
      (ex = Exit.panicked ↔ ∃ pc, o = SendOutcome.accepted pc ∧ mkReply pc = none)) ∧
    (c.cmd ≠ 1 → s.handleConnection fuel o oLogin conn w g =
      some (Exit.returned, ⟨g.relogin, g.heartbeatGoroutine, g.trace ++ [Event.closeLocal]⟩,
        ⟨w.out ++ [5, 0], false⟩)) := by
  obtain ⟨hrt, hlen⟩ := ReadFrom_ok_inv _ _ _ _ _ _ hcmd
  constructor
  · intro h1
    obtain ⟨dest, hd⟩ := DestAddress_some c hlen
    have hc : ¬ c.cmd ≠ cmdConnect := by simpa [cmdConnect] using h1
    have hq := hrt h1
    cases o with
    | failed e =>
      refine ⟨dest, Exit.returned, (g.send (connectionMessage (str "tcp") dest)).log Event.closeLocal,
        { w with out := w.out ++ [5, 0] }, hd, ?_, ?_, ?_⟩
      · simp only [serve.handleConnection, hgreet, Writer.Write, hw, hcmd, hd, hq, if_neg hc]
        simp
      · simp [Globals.send, Globals.log]
      · simp
    | refused pc =>
      refine ⟨dest, Exit.returned, s.reLogin oLogin (((g.send (connectionMessage (str "tcp")
        dest)).log Event.closeTunnel).log Event.closeLocal), { w with out := w.out ++ [5, 0] },
        hd, ?_, ?_, ?_⟩
      · simp only [serve.handleConnection, hgreet, Writer.Write, hw, hcmd, hd, hq, if_neg hc]
        simp
      · refine List.IsPrefix.trans ?_ (reLogin_trace_extends _ _ _)
        simp [Globals.send, Globals.log]
      · simp
    | accepted pc =>
      cases hm : mkReply pc with
      | none =>
        refine ⟨dest, Exit.panicked, g.send (connectionMessage (str "tcp") dest),
          { w with out := w.out ++ [5, 0] }, hd, ?_, ?_, ?_⟩
        · simp only [serve.handleConnection, hgreet, Writer.Write, hw, hcmd, hd, hq, if_neg hc]
          simp [hm]
        · simp [Globals.send, Globals.log]
        · simp [hm]
      | some r =>
        rcases hwt : r.WriteTo ⟨w.out ++ [5, 0], false⟩ with ⟨n3, err3, w2⟩
        by_cases he : err3 = none
        · refine ⟨dest, Exit.returned, (g.send (connectionMessage (str "tcp") dest)).log
            Event.relay, w2, hd, ?_, ?_, ?_⟩
          · simp only [serve.handleConnection, hgreet, Writer.Write, hw, hcmd, hd, hq, if_neg hc]
            simp [hm, hwt, he]
          · simp [Globals.send, Globals.log]
          · simp [hm]
        · refine ⟨dest, Exit.returned, ((g.send (connectionMessage (str "tcp") dest)).log
            Event.closeLocal).log Event.closeTunnel, w2, hd, ?_, ?_, ?_⟩
          · simp only [serve.handleConnection, hgreet, Writer.Write, hw, hcmd, hd, hq, if_neg hc]
            simp [hm, hwt, he]
          · simp [Globals.send, Globals.log]
          · simp [hm]
  · intro h1
    have hc : c.cmd ≠ cmdConnect := by simpa [cmdConnect] using h1
    simp only [serve.handleConnection, hgreet, Writer.Write, hw, hcmd, if_pos hc]
    simp [Globals.log]

/-- Instance of C6 (amended): the CONNECT frame for "test.local:80" leads to a handshake,
the UDP frame for 10.0.0.1:53 to none, the server accepting handshakes in both runs. -/
theorem handleConnection_connect_only_witness :
    (∃ dest ex g1 w1,
      (⟨5, 1, 0, 3, str "tcp", str "test.local", 80⟩ : Stepladder.cmd).DestAddress = some dest ∧
      exampleServe.handleConnection 2 (SendOutcome.accepted exampleTunnel)
        (SendOutcome.accepted exampleTunnel) connectStream ⟨[], false⟩ ⟨false, 1, []⟩ =
          some (ex, g1, w1) ∧
      (([] : List Event) ++ [Event.send (connectionMessage (str "tcp") dest) false]) <+: g1.trace ∧
      (ex = Exit.panicked ↔
        ∃ pc, SendOutcome.accepted exampleTunnel = SendOutcome.accepted pc ∧ mkReply pc = none)) ∧
    exampleServe.handleConnection 2 (SendOutcome.accepted exampleTunnel)
        (SendOutcome.accepted exampleTunnel) udpStream ⟨[], false⟩ ⟨false, 1, []⟩ =
      some (Exit.returned, ⟨false, 1, [] ++ [Event.closeLocal]⟩, ⟨[] ++ [5, 0], false⟩) :=
  ⟨(handleConnection_connect_only exampleServe 2 (SendOutcome.accepted exampleTunnel)
      (SendOutcome.accepted exampleTunnel) connectStream
      ⟨[[5, 1, 0, 3, 10, 116, 101, 115, 116, 46, 108, 111, 99, 97, 108, 0, 80]], GoError.EOF⟩
      ⟨[], GoError.EOF⟩ ⟨[], false⟩ ⟨false, 1, []⟩ ⟨5, 1, 0, 3, str "tcp", str "test.local", 80⟩ 13
      (by decide) rfl (by decide)).1 rfl,
    (handleConnection_connect_only exampleServe 2 (SendOutcome.accepted exampleTunnel)
      (SendOutcome.accepted exampleTunnel) udpStream
      ⟨[[5, 3, 0, 1, 10, 0, 0, 1, 0, 53]], GoError.EOF⟩
      ⟨[], GoError.EOF⟩ ⟨[], false⟩ ⟨false, 1, []⟩ ⟨5, 3, 0, 1, str "udp", [10, 0, 0, 1], 53⟩ 6
      (by decide) rfl (by decide)).2 (by decide)⟩

/-- C6 as stated fails for UDP: the greeting is read, the frame with command byte 3 is
parsed without error (with `reqtype = "udp"`), and `handleConnection` closes the local
connection without sending any handshake, although the server would accept it. -/
theorem handleConnection_udp_no_handshake :
    read 2 udpStream = some (none, ⟨[[5, 3, 0, 1, 10, 0, 0, 1, 0, 53]], GoError.EOF⟩) ∧
    cmd.ReadFrom 2 cmd.zero ⟨[[5, 3, 0, 1, 10, 0, 0, 1, 0, 53]], GoError.EOF⟩ =
      some (⟨5, 3, 0, 1, str "udp", [10, 0, 0, 1], 53⟩, 6, none, ⟨[], GoError.EOF⟩) ∧
    exampleServe.handleConnection 2 (SendOutcome.accepted exampleTunnel)
        (SendOutcome.accepted exampleTunnel) udpStream ⟨[], false⟩ ⟨false, 1, []⟩ =
      some (Exit.returned, ⟨false, 1, [Event.closeLocal]⟩, ⟨[5, 0], false⟩) := by
  refine ⟨by decide, by decide, by decide⟩

/-! ## Heartbeat and re-login -/

/-- C9 as stated fails: with two live monitors (a superseded one and the one of the
current login), a failing probe on the current login's monitor ends that monitor after
that one write; there is no second write, the control connection is not closed and no
Login handshake is sent. -/
theorem heartbeat_current_monitor_exits_silently :
    twoMonitors.heartbeatGoroutine = 2 ∧
    heartbeatRound exampleServe (SendOutcome.accepted exampleTunnel) false false twoMonitors =
      (false, ⟨false, 1, twoMonitors.trace ++ [Event.probeWrite false]⟩) := by
  refine ⟨by decide, by decide⟩

/-- C9 (amended): on a failed probe write a monitor decides by the number of live
monitors.  With more than one alive it ends at once: the failed probe is the only write
it makes (no retry, whatever a second write would do), the control connection is not
closed and `reLogin` is not called.  As the only live monitor it writes a second time;
if that succeeds it keeps running, and if that fails too it closes the control
connection, calls `reLogin` once and ends; if no re-login was in progress this sends
exactly one Login handshake. -/
theorem heartbeatRound_by_count (s : serve) (o : SendOutcome) (g : Globals) :
    (g.heartbeatGoroutine > 1 → ∀ write2, heartbeatRound s o false write2 g =
      (false, ⟨g.relogin, g.heartbeatGoroutine - 1, g.trace ++ [Event.probeWrite false]⟩)) ∧
    (g.heartbeatGoroutine ≤ 1 →
      heartbeatRound s o false true g =
        (true, ⟨g.relogin, g.heartbeatGoroutine,
          g.trace ++ [Event.probeWrite false, Event.probeWrite true]⟩) ∧
      heartbeatRound s o false false g =
        (false, heartbeatExit (s.reLogin o ⟨g.relogin, g.heartbeatGoroutine,
          g.trace ++ [Event.probeWrite false, Event.probeWrite false, Event.closeControl]⟩)) ∧
      (g.relogin = false → ∃ tail,
        (heartbeatRound s o false false g).2.trace =
          g.trace ++ [Event.probeWrite false, Event.probeWrite false, Event.closeControl,
            Event.send (loginMessage s) true] ++ tail ∧
        (tail = [] ∨ tail = [Event.spawnHeartbeat]) ∧
        (heartbeatRound s o false false g).2.relogin = false ∧
        (heartbeatRound s o false false g).2.heartbeatGoroutine = g.heartbeatGoroutine - 1)) := by
  constructor
  · intro h w2
    simp [heartbeatRound, h, heartbeatExit, Globals.log]
  · intro h
    have h' : ¬ g.heartbeatGoroutine > 1 := by omega
    refine ⟨by simp [heartbeatRound, h', Globals.log], by simp [heartbeatRound, h', Globals.log],
      fun hr => ?_⟩
    cases o with
    | failed e =>
      exact ⟨[], by simp [heartbeatRound, h', heartbeatExit, serve.reLogin, serve.handshake,
        Globals.send, Globals.log, hr]⟩
    | refused pc =>
      exact ⟨[], by simp [heartbeatRound, h', heartbeatExit, serve.reLogin, serve.handshake,
        Globals.send, Globals.log, hr]⟩
    | accepted pc =>
      exact ⟨[Event.spawnHeartbeat], by simp [heartbeatRound, h', heartbeatExit, serve.reLogin,
        serve.handshake, Globals.send, Globals.log, hr]⟩

/-- Instance of C9 (amended): a monitor among the two of `twoMonitors`, and the single
monitor of `oneMonitor` whose re-login fails. -/
theorem heartbeatRound_by_count_witness :
    (∀ write2,
      heartbeatRound exampleServe (SendOutcome.failed GoError.transport) false write2 twoMonitors =
        (false, ⟨twoMonitors.relogin, twoMonitors.heartbeatGoroutine - 1,
          twoMonitors.trace ++ [Event.probeWrite false]⟩)) ∧
    (∃ tail,
      (heartbeatRound exampleServe (SendOutcome.failed GoError.transport) false false
          oneMonitor).2.trace =
        oneMonitor.trace ++ [Event.probeWrite false, Event.probeWrite false, Event.closeControl,
          Event.send (loginMessage exampleServe) true] ++ tail ∧
      (tail = [] ∨ tail = [Event.spawnHeartbeat]) ∧
      (heartbeatRound exampleServe (SendOutcome.failed GoError.transport) false false
        oneMonitor).2.relogin = false ∧
      (heartbeatRound exampleServe (SendOutcome.failed GoError.transport) false false
        oneMonitor).2.heartbeatGoroutine = oneMonitor.heartbeatGoroutine - 1) :=
  ⟨(heartbeatRound_by_count exampleServe (SendOutcome.failed GoError.transport) twoMonitors).1
      (by decide),
    ((heartbeatRound_by_count exampleServe (SendOutcome.failed GoError.transport) oneMonitor).2
      (by decide)).2.2 rfl⟩

/-- C10: `reLogin` called while `relogin` is true returns at once and changes nothing (no
handshake is sent); called while `relogin` is false it sends exactly one Login handshake,
during which `relogin` is true, and `relogin` is false again when it returns, whether the
handshake failed, was refused or was accepted. -/
theorem reLogin_single_flight (s : serve) (o : SendOutcome) (g : Globals) :
    (g.relogin = true → s.reLogin o g = g) ∧
    (g.relogin = false →
      (s.reLogin o g).relogin = false ∧
      (s.reLogin o g).heartbeatGoroutine = g.heartbeatGoroutine ∧
      ∃ tail, (s.reLogin o g).trace = g.trace ++ Event.send (loginMessage s) true :: tail ∧
        (tail = [] ∨ tail = [Event.spawnHeartbeat])) := by
  constructor
  · intro h
    simp [serve.reLogin, h]
  · intro h
    cases o with
    | failed e =>
      exact ⟨by simp [serve.reLogin, serve.handshake, h], by
        simp [serve.reLogin, serve.handshake, Globals.send, Globals.log, h], [], by
        simp [serve.reLogin, serve.handshake, Globals.send, Globals.log, h]⟩
    | refused pc =>
      exact ⟨by simp [serve.reLogin, serve.handshake, h], by
        simp [serve.reLogin, serve.handshake, Globals.send, Globals.log, h], [], by
        simp [serve.reLogin, serve.handshake, Globals.send, Globals.log, h]⟩
    | accepted pc =>
      exact ⟨by simp [serve.reLogin, serve.handshake, h], by
        simp [serve.reLogin, serve.handshake, Globals.send, Globals.log, h],
        [Event.spawnHeartbeat], by
        simp [serve.reLogin, serve.handshake, Globals.send, Globals.log, h]⟩

/-- Instance of C10: a call during a re-login in progress, and a call whose handshake
the server refuses. -/
theorem reLogin_single_flight_witness :
    exampleServe.reLogin (SendOutcome.refused exampleTunnel) ⟨true, 1, []⟩ = ⟨true, 1, []⟩ ∧
    ((exampleServe.reLogin (SendOutcome.refused exampleTunnel) oneMonitor).relogin = false ∧
      (exampleServe.reLogin (SendOutcome.refused exampleTunnel) oneMonitor).heartbeatGoroutine =
        oneMonitor.heartbeatGoroutine ∧
      ∃ tail, (exampleServe.reLogin (SendOutcome.refused exampleTunnel) oneMonitor).trace =
          oneMonitor.trace ++ Event.send (loginMessage exampleServe) true :: tail ∧
        (tail = [] ∨ tail = [Event.spawnHeartbeat])) :=
  ⟨(reLogin_single_flight exampleServe (SendOutcome.refused exampleTunnel) ⟨true, 1, []⟩).1 rfl,
    (reLogin_single_flight exampleServe (SendOutcome.refused exampleTunnel) oneMonitor).2 rfl⟩

end Stepladder
